import Mathlib

/-!
Verification of `below/view/src/system_view.rs` (resctl): the system-view
row renderer. The file embeds the source's row builders, entity selection
and refresh driver, together with spec-modelled versions of the external
collaborators the source uses (`base_render::get_fixed_width`, `ViewItem`,
the `model` field-id/model types, `std::collections::BTreeMap` iteration
order, and the cursive view registry).
-/

/-! ## Lexicographic order on strings (BTreeMap key order) -/

/-- Modelled from the spec: `std::collections::BTreeMap<String, V>` iterates
its entries in ascending lexicographic order of keys ("name-ordered
collection"). `charListLt` is strict lexicographic order on the underlying
character lists. -/
def charListLt : List Char → List Char → Bool
  | [], [] => false
  | [], _ :: _ => true
  | _ :: _, [] => false
  | a :: as, b :: bs => if a < b then true else if b < a then false else charListLt as bs

theorem charListLt_cons (a b : Char) (as bs : List Char) :
    charListLt (a :: as) (b :: bs)
      = if a < b then true else if b < a then false else charListLt as bs := rfl

theorem charListLt_trans : ∀ a b c : List Char,
    charListLt a b = true → charListLt b c = true → charListLt a c = true
  | [], _, _ :: _, _, _ => rfl
  | [], _ :: _, [], _, h2 => by simp [charListLt] at h2
  | _ :: _, [], _, h1, _ => by simp [charListLt] at h1
  | _, _ :: _, [], _, h2 => by simp [charListLt] at h2
  | a :: as, b :: bs, c :: cs, h1, h2 => by
    rw [charListLt_cons] at h1 h2 ⊢
    rcases lt_trichotomy a b with hab | hab | hab
    · rcases lt_trichotomy b c with hbc | hbc | hbc
      · rw [if_pos (lt_trans hab hbc)]
      · subst hbc; rw [if_pos hab]
      · rw [if_neg (lt_asymm hbc), if_pos hbc] at h2; cases h2
    · subst hab
      rw [if_neg (lt_irrefl a), if_neg (lt_irrefl a)] at h1
      rcases lt_trichotomy a c with hac | hac | hac
      · rw [if_pos hac]
      · subst hac
        rw [if_neg (lt_irrefl a), if_neg (lt_irrefl a)] at h2 ⊢
        exact charListLt_trans as bs cs h1 h2
      · rw [if_neg (lt_asymm hac), if_pos hac] at h2; cases h2
    · rw [if_neg (lt_asymm hab), if_pos hab] at h1; cases h1

theorem charListLt_asymm : ∀ a b : List Char,
    charListLt a b = true → charListLt b a = true → False
  | a :: as, b :: bs, h1, h2 => by
    rw [charListLt_cons] at h1 h2
    rcases lt_trichotomy a b with h | h | h
    · rw [if_neg (lt_asymm h), if_pos h] at h2; cases h2
    · subst h
      rw [if_neg (lt_irrefl a), if_neg (lt_irrefl a)] at h1 h2
      exact charListLt_asymm as bs h1 h2
    · rw [if_neg (lt_asymm h), if_pos h] at h1; cases h1
  | [], _ :: _, _, h2 => by simp [charListLt] at h2
  | [], [], h1, _ => by simp [charListLt] at h1
  | _ :: _, [], h1, _ => by simp [charListLt] at h1

theorem charListLt_trichotomy : ∀ a b : List Char,
    charListLt a b = true ∨ a = b ∨ charListLt b a = true
  | [], [] => Or.inr (Or.inl rfl)
  | [], _ :: _ => Or.inl rfl
  | _ :: _, [] => Or.inr (Or.inr rfl)
  | a :: as, b :: bs => by
    rcases lt_trichotomy a b with h | h | h
    · left; rw [charListLt_cons, if_pos h]
    · subst h
      rcases charListLt_trichotomy as bs with h2 | h2 | h2
      · left; rw [charListLt_cons, if_neg (lt_irrefl a), if_neg (lt_irrefl a)]; exact h2
      · right; left; rw [h2]
      · right; right
        rw [charListLt_cons, if_neg (lt_irrefl a), if_neg (lt_irrefl a)]; exact h2
    · right; right; rw [charListLt_cons, if_pos h]

/-- Strict lexicographic order on `String`, the `BTreeMap` key order. -/
def strLt (a b : String) : Prop := charListLt a.data b.data = true

instance (a b : String) : Decidable (strLt a b) := by
  unfold strLt; infer_instance

theorem strLt_trans {a b c : String} (h1 : strLt a b) (h2 : strLt b c) : strLt a c :=
  charListLt_trans a.data b.data c.data h1 h2

theorem strLt_asymm {a b : String} (h1 : strLt a b) (h2 : strLt b a) : False :=
  charListLt_asymm a.data b.data h1 h2

theorem strLt_trichotomy (a b : String) : strLt a b ∨ a = b ∨ strLt b a := by
  rcases charListLt_trichotomy a.data b.data with h | h | h
  · exact Or.inl h
  · refine Or.inr (Or.inl ?_)
    cases a; cases b; cases h; rfl
  · exact Or.inr (Or.inr h)

/-! ## The styled-text padding helper -/

/-- Modelled from the spec: `base_render::get_fixed_width` produces a text
fragment of exactly the requested printed width — over-long input is
truncated, short input is right-padded with spaces ("left-padded/truncated
as needed" to a deterministic, input-length-independent width). -/
def get_fixed_width (s : String) (width : Nat) : String :=
  ⟨s.data.take width ++ List.replicate (width - s.data.length) ' '⟩

theorem get_fixed_width_length (s : String) (width : Nat) :
    (get_fixed_width s width).length = width := by
  show (s.data.take width ++ List.replicate (width - s.data.length) ' ').length = width
  rw [List.length_append, List.length_take, List.length_replicate]
  omega

/-! ## RenderConfig and ViewItem (spec-modelled `base_render` / view `render`) -/

/-- Modelled from the spec: a formatting rule attached to a field
(percentage, byte-rate, count-rate, or plain). Rendering appends the
corresponding unit suffix to the formatted value. -/
inductive FormatRule
  | plain
  | percentage
  | byteRate
  | countRate
  deriving DecidableEq, Repr

/-- Unit suffix a format rule appends to a rendered value. -/
def FormatRule.suffix : FormatRule → String
  | .plain => ""
  | .percentage => "%"
  | .byteRate => "/s"
  | .countRate => "/s"

/-- Modelled from the spec: per-field render metadata — display title,
target column width, and formatting rule. -/
structure RenderConfig where
  title : String
  width : Nat
  format : FormatRule
  deriving DecidableEq, Repr

/-- Display title of a field (`render_config.get_title()`). -/
def RenderConfig.get_title (c : RenderConfig) : String := c.title

/-- Modelled from the spec: a scoped override of a `RenderConfig` — the
`rc!` builder. Absent keys leave the existing config untouched; present
keys win on conflict. -/
structure RenderConfigBuilder where
  title : Option String := none
  width : Option Nat := none
  format : Option FormatRule := none
  deriving DecidableEq, Repr

/-- Merge an override onto a config: the override wins on conflicting keys,
producing a new config without mutating the old one. -/
def RenderConfig.update (c : RenderConfig) (b : RenderConfigBuilder) : RenderConfig :=
  { title := b.title.getD c.title
    width := b.width.getD c.width
    format := b.format.getD c.format }

/-- The `rc!(width(w))` override used by the row builders. -/
def rc_width (w : Nat) : RenderConfigBuilder := { width := some w }

/-- Modelled from the spec: every field-id type carries a statically known
default `RenderConfig` per field (the `HasRenderConfig` contract). -/
class HasRenderConfig (F : Type) where
  get_render_config : F → RenderConfig

/-- Modelled from the spec: the `Queriable` capability — a metric-model
type resolves a `FieldId` of its domain to the field's current value
formatted as text. Pure read, no side effects. -/
class Queriable (M : Type) (F : outParam Type) where
  query : M → F → String

/-- Modelled from the spec: a `ViewItem` binds one field identifier to a
(possibly overridden) rendering configuration; it is a cheap value type. -/
structure ViewItem (F : Type) where
  field_id : F
  config : RenderConfig
  deriving DecidableEq, Repr

/-- Construct a `ViewItem` from a field's default render config. -/
def ViewItem.from_default [HasRenderConfig F] (f : F) : ViewItem F :=
  { field_id := f, config := HasRenderConfig.get_render_config f }

/-- Return a new `ViewItem` with the override merged onto the existing
config; the original item is unchanged. -/
def ViewItem.update (v : ViewItem F) (b : RenderConfigBuilder) : ViewItem F :=
  { v with config := v.config.update b }

/-- Render the item's field value against a model: the formatted value with
the format rule's suffix, padded/truncated to the configured width. -/
def ViewItem.render [Queriable M F] (v : ViewItem F) (m : M) : String :=
  get_fixed_width (Queriable.query m v.field_id ++ v.config.format.suffix) v.config.width

/-! ## Field identifiers and models (spec-modelled `model` crate) -/

/-- Modelled from the spec: CPU sub-domain field identifiers. -/
inductive SingleCpuModelFieldId
  | UsagePct
  | UserPct
  | SystemPct
  deriving DecidableEq, Repr

/-- Modelled from the spec: memory sub-domain field identifiers. -/
inductive MemoryModelFieldId
  | Total
  | Free
  | Anon
  | File
  deriving DecidableEq, Repr

/-- Modelled from the spec: virtual-memory sub-domain field identifiers. -/
inductive VmModelFieldId
  | PgpginPerSec
  | PgpgoutPerSec
  | PswpinPerSec
  | PswpoutPerSec
  deriving DecidableEq, Repr

/-- Modelled from the spec: the system domain's field-id set is a tagged
union over the CPU, memory and VM sub-domains. -/
inductive SystemModelFieldId
  | Cpu (f : SingleCpuModelFieldId)
  | Mem (f : MemoryModelFieldId)
  | Vm (f : VmModelFieldId)
  deriving DecidableEq, Repr

/-- Modelled from the spec: the disk sub-entity field used by the I/O row. -/
inductive SingleDiskModelFieldId
  | DiskTotalBytesPerSec
  deriving DecidableEq, Repr

/-- Modelled from the spec: the interface sub-entity field used by the
network-throughput row. -/
inductive SingleNetModelFieldId
  | ThroughputPerSec
  deriving DecidableEq, Repr

/-- Modelled from the spec: aggregate CPU counters (percent values kept as
whole numbers for the embedding). -/
structure SingleCpuModel where
  usage_pct : Nat
  user_pct : Nat
  system_pct : Nat
  deriving DecidableEq, Repr

/-- Modelled from the spec: aggregate memory counters. -/
structure MemoryModel where
  total : Nat
  free : Nat
  anon : Nat
  file : Nat
  deriving DecidableEq, Repr

/-- Modelled from the spec: virtual-memory paging counters. -/
structure VmModel where
  pgpgin_per_sec : Nat
  pgpgout_per_sec : Nat
  pswpin_per_sec : Nat
  pswpout_per_sec : Nat
  deriving DecidableEq, Repr

/-- Modelled from the spec: one disk's model — a device "minor number"
attribute (absent when unknown) and a throughput field. -/
structure SingleDiskModel where
  minor : Option Nat
  disk_total_bytes_per_sec : Nat
  deriving DecidableEq, Repr

/-- Modelled from the spec: one network interface's model. -/
structure SingleNetModel where
  throughput_per_sec : Nat
  deriving DecidableEq, Repr

/-- Modelled from the spec: a name-keyed, name-ordered collection — a
`BTreeMap<String, V>` exposed as its ascending-key entry sequence. -/
abbrev BTreeMap (V : Type) := List (String × V)

/-- Insert into the ascending-key entry sequence, replacing an equal key. -/
def btreeInsert : BTreeMap V → String → V → BTreeMap V
  | [], k, v => [(k, v)]
  | (k', v') :: rest, k, v =>
    if strLt k k' then (k, v) :: (k', v') :: rest
    else if k = k' then (k, v) :: rest
    else (k', v') :: btreeInsert rest k v

/-- Build a `BTreeMap` by inserting the entries of a list in order. -/
def btreeOfList (l : List (String × V)) : BTreeMap V :=
  l.foldl (fun m p => btreeInsert m p.1 p.2) []

/-! ## Default render configs and query instances (spec-modelled) -/

/-- Modelled from the spec: default render configs of the CPU fields
(percent-formatted). Default widths are deliberately unequal to the row
builders' fixed widths, so the width-override behaviour is observable. -/
instance : HasRenderConfig SingleCpuModelFieldId where
  get_render_config
    | .UsagePct => { title := "Usage", width := 10, format := .percentage }
    | .UserPct => { title := "User", width := 10, format := .percentage }
    | .SystemPct => { title := "System", width := 10, format := .percentage }

/-- Modelled from the spec: default render configs of the memory fields. -/
instance : HasRenderConfig MemoryModelFieldId where
  get_render_config
    | .Total => { title := "Total", width := 12, format := .plain }
    | .Free => { title := "Free", width := 12, format := .plain }
    | .Anon => { title := "Anon", width := 12, format := .plain }
    | .File => { title := "File", width := 12, format := .plain }

/-- Modelled from the spec: default render configs of the VM fields
(count-rate formatted). -/
instance : HasRenderConfig VmModelFieldId where
  get_render_config
    | .PgpginPerSec => { title := "Pgpgin", width := 11, format := .countRate }
    | .PgpgoutPerSec => { title := "Pgpgout", width := 11, format := .countRate }
    | .PswpinPerSec => { title := "Pswpin", width := 11, format := .countRate }
    | .PswpoutPerSec => { title := "Pswpout", width := 11, format := .countRate }

/-- Default config of a system field is its sub-domain field's default. -/
instance : HasRenderConfig SystemModelFieldId where
  get_render_config
    | .Cpu f => HasRenderConfig.get_render_config f
    | .Mem f => HasRenderConfig.get_render_config f
    | .Vm f => HasRenderConfig.get_render_config f

/-- Modelled from the spec: default render config of the disk throughput
field (byte-rate formatted). -/
instance : HasRenderConfig SingleDiskModelFieldId where
  get_render_config
    | .DiskTotalBytesPerSec => { title := "I/O", width := 13, format := .byteRate }

/-- Modelled from the spec: default render config of the interface
throughput field (byte-rate formatted). -/
instance : HasRenderConfig SingleNetModelFieldId where
  get_render_config
    | .ThroughputPerSec => { title := "Thrpt", width := 13, format := .byteRate }

/-- Modelled from the spec: `SystemModel` resolves its tagged-union field
ids to the matching aggregate counter, formatted as text. -/
instance : Queriable SingleCpuModel SingleCpuModelFieldId where
  query m
    | .UsagePct => toString m.usage_pct
    | .UserPct => toString m.user_pct
    | .SystemPct => toString m.system_pct

/-- Modelled from the spec: memory counters formatted as text. -/
instance : Queriable MemoryModel MemoryModelFieldId where
  query m
    | .Total => toString m.total
    | .Free => toString m.free
    | .Anon => toString m.anon
    | .File => toString m.file

/-- Modelled from the spec: VM counters formatted as text. -/
instance : Queriable VmModel VmModelFieldId where
  query m
    | .PgpginPerSec => toString m.pgpgin_per_sec
    | .PgpgoutPerSec => toString m.pgpgout_per_sec
    | .PswpinPerSec => toString m.pswpin_per_sec
    | .PswpoutPerSec => toString m.pswpout_per_sec

/-- Modelled from the spec: one disk's throughput field as text. -/
instance : Queriable SingleDiskModel SingleDiskModelFieldId where
  query m
    | .DiskTotalBytesPerSec => toString m.disk_total_bytes_per_sec

/-- Modelled from the spec: one interface's throughput field as text. -/
instance : Queriable SingleNetModel SingleNetModelFieldId where
  query m
    | .ThroughputPerSec => toString m.throughput_per_sec

/-- Modelled from the spec: the system model aggregates the CPU, memory and
VM sub-models plus the name-ordered disk collection. -/
structure SystemModel where
  cpu : SingleCpuModel
  mem : MemoryModel
  vm : VmModel
  disks : BTreeMap SingleDiskModel
  deriving DecidableEq, Repr

/-- Modelled from the spec: the network model holds the name-ordered
interface collection. -/
structure NetworkModel where
  interfaces : BTreeMap SingleNetModel
  deriving DecidableEq, Repr

/-- System-level query dispatches on the tagged union to the sub-model. -/
instance : Queriable SystemModel SystemModelFieldId where
  query m
    | .Cpu f => Queriable.query m.cpu f
    | .Mem f => Queriable.query m.mem f
    | .Vm f => Queriable.query m.vm f

/-! ## Static ViewItem tables and row builders (from the source) -/

/-- Corresponds to `type SystemViewItem = ViewItem<SystemModelFieldId>`. -/
abbrev SystemViewItem := ViewItem SystemModelFieldId

/-- Embeds the static `SYS_CPU_ITEMS` table: usage, then user, then system
percent, each from its default config. -/
def SYS_CPU_ITEMS : List SystemViewItem :=
  [ViewItem.from_default (.Cpu .UsagePct),
   ViewItem.from_default (.Cpu .UserPct),
   ViewItem.from_default (.Cpu .SystemPct)]

/-- Embeds the static `SYS_MEM_ITEMS` table. -/
def SYS_MEM_ITEMS : List SystemViewItem :=
  [ViewItem.from_default (.Mem .Total),
   ViewItem.from_default (.Mem .Free),
   ViewItem.from_default (.Mem .Anon),
   ViewItem.from_default (.Mem .File)]

/-- Embeds the static `SYS_VM_ITEMS` table. -/
def SYS_VM_ITEMS : List SystemViewItem :=
  [ViewItem.from_default (.Vm .PgpginPerSec),
   ViewItem.from_default (.Vm .PgpgoutPerSec),
   ViewItem.from_default (.Vm .PswpinPerSec),
   ViewItem.from_default (.Vm .PswpoutPerSec)]

/-- Embeds `ROW_NAME_WIDTH` from the source. -/
def ROW_NAME_WIDTH : Nat := 15

/-- Embeds `ROW_FIELD_NAME_WIDTH` from the source. -/
def ROW_FIELD_NAME_WIDTH : Nat := 9

/-- Embeds `ROW_FIELD_WIDTH` from the source. -/
def ROW_FIELD_WIDTH : Nat := 17

/-- Embeds `render_row`: the single-model multi-field row builder. A styled
row is the list of appended fragments: the padded label, then per item the
padded field title and the value rendered with the width override. -/
def render_row [Queriable M F] (name : String) (model : M)
    (items : List (ViewItem F)) : List String :=
  items.foldl
    (fun row item =>
      row ++ [get_fixed_width item.config.get_title ROW_FIELD_NAME_WIDTH,
              (item.update (rc_width ROW_FIELD_WIDTH)).render model])
    [get_fixed_width name ROW_NAME_WIDTH]

/-- Embeds `render_models_row`: the multi-model single-field row builder.
The width override is applied to the item once, before the loop. -/
def render_models_row [Queriable M F] (name : String)
    (models : List (String × M)) (item : ViewItem F) : List String :=
  let item := item.update (rc_width ROW_FIELD_WIDTH)
  models.foldl
    (fun row p =>
      row ++ [get_fixed_width p.1 ROW_FIELD_NAME_WIDTH, item.render p.2])
    [get_fixed_width name ROW_NAME_WIDTH]

/-- Embeds `render_cpu_row`. -/
def render_cpu_row (model : SystemModel) : List String :=
  render_row "CPU" model SYS_CPU_ITEMS

/-- Embeds `render_mem_row`. -/
def render_mem_row (model : SystemModel) : List String :=
  render_row "Mem" model SYS_MEM_ITEMS

/-- Embeds `render_vm_row`. -/
def render_vm_row (model : SystemModel) : List String :=
  render_row "VM" model SYS_VM_ITEMS

/-- Embeds `render_io_row`: only disks whose minor number equals zero are
passed to the row builder. -/
def render_io_row (disks : BTreeMap SingleDiskModel) : List String :=
  render_models_row "I/O"
    (disks.filter fun p => p.2.minor = some 0)
    (ViewItem.from_default .DiskTotalBytesPerSec)

/-- Embeds `render_iface_row`: every interface is passed to the row
builder, unfiltered. -/
def render_iface_row (ifaces : BTreeMap SingleNetModel) : List String :=
  render_models_row "Iface" ifaces (ViewItem.from_default .ThroughputPerSec)

/-! ## View assembly and refresh driver -/

/-- Modelled from the spec: the application state container holding the
system and network model snapshots. -/
structure ViewState where
  system : SystemModel
  network : NetworkModel
  deriving DecidableEq, Repr

/-- Modelled from the spec: the relevant slice of the cursive UI state —
the optional user data (`ViewState`) and the registry of named vertical
lists, each a list of text rows. -/
structure Cursive where
  user_data : Option ViewState
  named_views : List (String × List (List String))
  deriving DecidableEq, Repr

/-- Modelled from the spec: `find_name` locates the first registered view
with the given name. -/
def find_name (c : Cursive) (n : String) : Option (List (List String)) :=
  (c.named_views.find? fun p => p.1 = n).map Prod.snd

/-- Modelled from the spec: replace the contents of the registered view
with the given name (the `*v = view` write-back through the handle). -/
def set_view (c : Cursive) (n : String) (rows : List (List String)) : Cursive :=
  { c with named_views := c.named_views.map fun p => if p.1 = n then (p.1, rows) else p }

/-- The five rows `fill_content` builds from a snapshot, in order. -/
def system_rows (vs : ViewState) : List (List String) :=
  [render_cpu_row vs.system,
   render_mem_row vs.system,
   render_vm_row vs.system,
   render_io_row vs.system.disks,
   render_iface_row vs.network.interfaces]

/-- Embeds `fill_content`: reads the `ViewState` user data (a fatal
assertion when absent) and rebuilds the five rows from the snapshot. -/
def fill_content (c : Cursive) : Except String (List (List String)) :=
  match c.user_data with
  | none => .error "No data stored in Cursive object!"
  | some vs => .ok (system_rows vs)

/-- Embeds `refresh`: locate the view registered as "system_view" (a fatal
assertion when absent), then rebuild its contents in place. -/
def refresh (c : Cursive) : Except String Cursive :=
  match find_name c "system_view" with
  | none => .error "No system_view view found!"
  | some _ => (fill_content c).map fun rows => set_view c "system_view" rows

/-- Embeds `new`: build the five rows and register the vertical list under
the stable identifier "system_view". -/
def new_view (c : Cursive) : Except String Cursive :=
  (fill_content c).map fun rows =>
    { c with named_views := c.named_views ++ [("system_view", rows)] }

/-! ## Row structure lemmas -/

theorem foldl_append_flatMap (f : α → List β) :
    ∀ (l : List α) (init : List β),
      l.foldl (fun r x => r ++ f x) init = init ++ l.flatMap f
  | [], init => by simp
  | x :: rest, init => by
    rw [List.foldl_cons, foldl_append_flatMap f rest (init ++ f x)]
    simp [List.flatMap_cons]

theorem flatMap_of_map (f : α → β) (g : β → List γ) :
    ∀ l : List α, (l.map f).flatMap g = l.flatMap fun x => g (f x)
  | [] => rfl
  | x :: rest => by
    simp [List.flatMap_cons, flatMap_of_map f g rest]

/-- Unrolls `render_row` into the padded label followed by, per item in the
caller-supplied order, the padded title and the width-overridden value. -/
theorem render_row_eq [Queriable M F] (name : String) (model : M)
    (items : List (ViewItem F)) :
    render_row name model items
      = get_fixed_width name ROW_NAME_WIDTH
        :: items.flatMap fun item =>
             [get_fixed_width item.config.get_title ROW_FIELD_NAME_WIDTH,
              (item.update (rc_width ROW_FIELD_WIDTH)).render model] := by
  unfold render_row
  rw [foldl_append_flatMap]
  rfl

/-- Unrolls `render_models_row` into the padded label followed by, per
entity in the caller-supplied iteration order, the padded entity name and
the width-overridden value. -/
theorem render_models_row_eq [Queriable M F] (name : String)
    (models : List (String × M)) (item : ViewItem F) :
    render_models_row name models item
      = get_fixed_width name ROW_NAME_WIDTH
        :: models.flatMap fun p =>
             [get_fixed_width p.1 ROW_FIELD_NAME_WIDTH,
              (item.update (rc_width ROW_FIELD_WIDTH)).render p.2] := by
  unfold render_models_row
  rw [foldl_append_flatMap]
  rfl

theorem render_updated_width_length [Queriable M F] (i : ViewItem F) (m : M) :
    ((i.update (rc_width ROW_FIELD_WIDTH)).render m).length = ROW_FIELD_WIDTH :=
  get_fixed_width_length _ _

theorem map_length_flatMap_pair (u v : α → String) :
    ∀ l : List α, ((l.flatMap fun x => [u x, v x]).map String.length)
      = l.flatMap fun x => [(u x).length, (v x).length]
  | [] => rfl
  | x :: rest => by
    simp only [List.flatMap_cons, List.map_append, map_length_flatMap_pair u v rest]
    rfl

/-! ## BTreeMap iteration-order lemmas -/

/-- Order on entries induced by the key order. -/
def keyLt {V : Type} (p q : String × V) : Prop := strLt p.1 q.1

instance {V : Type} : IsAntisymm (String × V) keyLt :=
  ⟨fun _ _ h1 h2 => (strLt_asymm h1 h2).elim⟩

theorem mem_btreeInsert {V : Type} :
    ∀ (m : BTreeMap V) (k : String) (v : V) (q : String × V),
      q ∈ btreeInsert m k v → q = (k, v) ∨ q ∈ m
  | [], k, v, q, h => by
    simp only [btreeInsert, List.mem_singleton] at h
    exact Or.inl h
  | (k', v') :: rest, k, v, q, h => by
    unfold btreeInsert at h
    by_cases h1 : strLt k k'
    · rw [if_pos h1] at h
      rcases List.mem_cons.mp h with rfl | h
      · exact Or.inl rfl
      · exact Or.inr h
    · rw [if_neg h1] at h
      by_cases h2 : k = k'
      · rw [if_pos h2] at h
        rcases List.mem_cons.mp h with rfl | h
        · exact Or.inl rfl
        · exact Or.inr (List.mem_cons_of_mem _ h)
      · rw [if_neg h2] at h
        rcases List.mem_cons.mp h with rfl | h
        · exact Or.inr (List.mem_cons_self _ _)
        · rcases mem_btreeInsert rest k v q h with h | h
          · exact Or.inl h
          · exact Or.inr (List.mem_cons_of_mem _ h)

theorem btreeInsert_pairwise {V : Type} :
    ∀ (m : BTreeMap V) (k : String) (v : V),
      List.Pairwise keyLt m → List.Pairwise keyLt (btreeInsert m k v)
  | [], k, v, _ => List.pairwise_singleton _ _
  | (k', v') :: rest, k, v, hp => by
    rcases List.pairwise_cons.mp hp with ⟨hk', hrest⟩
    unfold btreeInsert
    by_cases h1 : strLt k k'
    · rw [if_pos h1]
      refine List.pairwise_cons.mpr ⟨?_, hp⟩
      intro q hq
      rcases List.mem_cons.mp hq with rfl | hq
      · exact h1
      · exact strLt_trans h1 (hk' q hq)
    · rw [if_neg h1]
      by_cases h2 : k = k'
      · rw [if_pos h2]
        refine List.pairwise_cons.mpr ⟨?_, hrest⟩
        intro q hq
        show strLt (k, v).1 q.1
        rw [h2]
        exact hk' q hq
      · rw [if_neg h2]
        have hk2 : strLt k' k := by
          rcases strLt_trichotomy k k' with h | h | h
          · exact absurd h h1
          · exact absurd h h2
          · exact h
        refine List.pairwise_cons.mpr ⟨?_, btreeInsert_pairwise rest k v hrest⟩
        intro q hq
        rcases mem_btreeInsert rest k v q hq with rfl | hq
        · exact hk2
        · exact hk' q hq

theorem foldl_btreeInsert_pairwise {V : Type} :
    ∀ (l : List (String × V)) (m : BTreeMap V),
      List.Pairwise keyLt m →
      List.Pairwise keyLt (l.foldl (fun acc p => btreeInsert acc p.1 p.2) m)
  | [], _, h => h
  | p :: rest, m, h =>
    foldl_btreeInsert_pairwise rest _ (btreeInsert_pairwise m p.1 p.2 h)

/-- The entry sequence of a built `BTreeMap` is sorted by key. -/
theorem btreeOfList_pairwise {V : Type} (l : List (String × V)) :
    List.Pairwise keyLt (btreeOfList l) :=
  foldl_btreeInsert_pairwise l [] List.Pairwise.nil

theorem btreeInsert_perm {V : Type} :
    ∀ (m : BTreeMap V) (k : String) (v : V),
      k ∉ m.map Prod.fst → List.Perm (btreeInsert m k v) ((k, v) :: m)
  | [], _, _, _ => List.Perm.refl _
  | (k', v') :: rest, k, v, hk => by
    have hne : k ≠ k' := by
      intro h
      exact hk (by simp [h])
    have hkrest : k ∉ rest.map Prod.fst := fun h => hk (by simp [h])
    unfold btreeInsert
    by_cases h1 : strLt k k'
    · rw [if_pos h1]
    · rw [if_neg h1, if_neg hne]
      exact ((btreeInsert_perm rest k v hkrest).cons (k', v')).trans
        (List.Perm.swap (k, v) (k', v') rest)

theorem foldl_btreeInsert_perm {V : Type} :
    ∀ (l : List (String × V)) (m : BTreeMap V),
      (l.map Prod.fst ++ m.map Prod.fst).Nodup →
      List.Perm (l.foldl (fun acc p => btreeInsert acc p.1 p.2) m) (m ++ l)
  | [], m, _ => by simp
  | p :: rest, m, hnd => by
    have hnd' : (p.1 :: (rest.map Prod.fst ++ m.map Prod.fst)).Nodup := by
      simpa using hnd
    rcases List.nodup_cons.mp hnd' with ⟨hp1, hnd''⟩
    have hpm : p.1 ∉ m.map Prod.fst := fun h => hp1 (List.mem_append_right _ h)
    have hinsert := btreeInsert_perm m p.1 p.2 hpm
    have hkeys : List.Perm ((btreeInsert m p.1 p.2).map Prod.fst)
        (p.1 :: m.map Prod.fst) := hinsert.map Prod.fst
    have hperm : List.Perm (p.1 :: (rest.map Prod.fst ++ m.map Prod.fst))
        (rest.map Prod.fst ++ (btreeInsert m p.1 p.2).map Prod.fst) :=
      List.perm_middle.symm.trans ((hkeys.symm).append_left (rest.map Prod.fst))
    have hnd2 : (rest.map Prod.fst ++ (btreeInsert m p.1 p.2).map Prod.fst).Nodup :=
      hperm.nodup hnd'
    have ih := foldl_btreeInsert_perm rest (btreeInsert m p.1 p.2) hnd2
    show List.Perm (rest.foldl (fun acc q => btreeInsert acc q.1 q.2) (btreeInsert m p.1 p.2))
      (m ++ p :: rest)
    exact (ih.trans (hinsert.append_right rest)).trans List.perm_middle.symm

/-- Building a `BTreeMap` from entries with pairwise-distinct keys keeps
exactly those entries, reordered. -/
theorem btreeOfList_perm {V : Type} (l : List (String × V))
    (h : (l.map Prod.fst).Nodup) : List.Perm (btreeOfList l) l := by
  have := foldl_btreeInsert_perm l [] (by simpa using h)
  simpa [btreeOfList] using this

/-- The built `BTreeMap` does not depend on the insertion order of entries
with pairwise-distinct keys. -/
theorem btreeOfList_eq_of_perm {V : Type} (l₁ l₂ : List (String × V))
    (hp : List.Perm l₁ l₂) (hnd : (l₁.map Prod.fst).Nodup) :
    btreeOfList l₁ = btreeOfList l₂ := by
  have hnd₂ : (l₂.map Prod.fst).Nodup := (hp.map Prod.fst).nodup hnd
  have p1 := btreeOfList_perm l₁ hnd
  have p2 := btreeOfList_perm l₂ hnd₂
  exact List.eq_of_perm_of_sorted (p1.trans (hp.trans p2.symm))
    (btreeOfList_pairwise l₁) (btreeOfList_pairwise l₂)

/-- The key sequence of a built `BTreeMap` is strictly ascending. -/
theorem btreeOfList_keys_sorted {V : Type} (l : List (String × V)) :
    List.Pairwise strLt ((btreeOfList l).map Prod.fst) :=
  List.pairwise_map.mpr (btreeOfList_pairwise l)

/-! ## Shared statement abbreviations and example data -/

/-- The two segments one disk contributes to the I/O row: its padded name
and the width-overridden throughput value. -/
def disk_segments (p : String × SingleDiskModel) : List String :=
  [get_fixed_width p.1 ROW_FIELD_NAME_WIDTH,
   ((ViewItem.from_default SingleDiskModelFieldId.DiskTotalBytesPerSec).update
      (rc_width ROW_FIELD_WIDTH)).render p.2]

/-- The two segments one interface contributes to the interface row. -/
def iface_segments (p : String × SingleNetModel) : List String :=
  [get_fixed_width p.1 ROW_FIELD_NAME_WIDTH,
   ((ViewItem.from_default SingleNetModelFieldId.ThroughputPerSec).update
      (rc_width ROW_FIELD_WIDTH)).render p.2]

/-- The spec's worked disk collection: parent devices "sda" and "sdb" with
minor number zero, partition "sda1" with minor number one. -/
def exampleDisks : BTreeMap SingleDiskModel :=
  btreeOfList
    [("sda", { minor := some 0, disk_total_bytes_per_sec := 100 }),
     ("sda1", { minor := some 1, disk_total_bytes_per_sec := 5 }),
     ("sdb", { minor := some 0, disk_total_bytes_per_sec := 200 })]

/-- A concrete snapshot used to instantiate hypotheses at closed inputs. -/
def vs_example : ViewState :=
  { system :=
      { cpu := { usage_pct := 55, user_pct := 40, system_pct := 15 }
        mem := { total := 1000, free := 300, anon := 500, file := 200 }
        vm := { pgpgin_per_sec := 1, pgpgout_per_sec := 2, pswpin_per_sec := 3,
                pswpout_per_sec := 4 }
        disks := btreeOfList [("sda", { minor := some 0, disk_total_bytes_per_sec := 100 })] }
    network := { interfaces := btreeOfList [("eth0", { throughput_per_sec := 42 })] } }

/-! ## Claim theorems -/

/-- C1: the entity-selection policy before row building: the disk I/O row
includes exactly the disks whose minor number equals zero (on the worked
collection it shows exactly "sda" and "sdb" and excludes "sda1"), while
the interface row includes every interface with no filtering. -/
theorem io_iface_row_selection :
    (∀ disks : BTreeMap SingleDiskModel,
      render_io_row disks
        = get_fixed_width "I/O" ROW_NAME_WIDTH
          :: (disks.filter fun p => p.2.minor = some 0).flatMap disk_segments)
    ∧ (∀ ifaces : BTreeMap SingleNetModel,
      render_iface_row ifaces
        = get_fixed_width "Iface" ROW_NAME_WIDTH :: ifaces.flatMap iface_segments)
    ∧ render_io_row exampleDisks
        = [get_fixed_width "I/O" ROW_NAME_WIDTH,
           get_fixed_width "sda" ROW_FIELD_NAME_WIDTH,
           get_fixed_width "100/s" ROW_FIELD_WIDTH,
           get_fixed_width "sdb" ROW_FIELD_NAME_WIDTH,
           get_fixed_width "200/s" ROW_FIELD_WIDTH] := by
  refine ⟨?_, ?_, by decide⟩
  · intro disks
    unfold render_io_row
    rw [render_models_row_eq]
    rfl
  · intro ifaces
    unfold render_iface_row
    rw [render_models_row_eq]
    rfl

/-- C2: a multi-model single-field row emits its per-entity segments in
ascending lexicographic order of entity names, deterministically,
regardless of the order in which entries were inserted into the underlying
name-keyed collection. -/
theorem models_row_lexicographic_order :
    (∀ e₁ e₂ : List (String × SingleNetModel),
      List.Perm e₁ e₂ → (e₁.map Prod.fst).Nodup →
      render_iface_row (btreeOfList e₁) = render_iface_row (btreeOfList e₂))
    ∧ (∀ e : List (String × SingleNetModel),
      List.Pairwise strLt ((btreeOfList e).map Prod.fst))
    ∧ (∀ d : List (String × SingleDiskModel),
      List.Pairwise strLt
        (((btreeOfList d).filter fun p => p.2.minor = some 0).map Prod.fst))
    ∧ (∀ ifaces : BTreeMap SingleNetModel,
      render_iface_row ifaces
        = get_fixed_width "Iface" ROW_NAME_WIDTH :: ifaces.flatMap iface_segments) := by
  refine ⟨?_, btreeOfList_keys_sorted, ?_, ?_⟩
  · intro e₁ e₂ hp hnd
    rw [btreeOfList_eq_of_perm e₁ e₂ hp hnd]
  · intro d
    exact List.pairwise_map.mpr ((btreeOfList_pairwise d).filter _)
  · intro ifaces
    unfold render_iface_row
    rw [render_models_row_eq]
    rfl

/-- C2 witness: two insertion orders of the same two interfaces produce
the same interface row. -/
theorem models_row_lexicographic_order_witness :
    render_iface_row (btreeOfList
        [("eth1", { throughput_per_sec := 1 }), ("eth0", { throughput_per_sec := 2 })])
      = render_iface_row (btreeOfList
        [("eth0", { throughput_per_sec := 2 }), ("eth1", { throughput_per_sec := 1 })]) :=
  models_row_lexicographic_order.1 _ _ (by decide) (by decide)

/-- C3: the single-model multi-field row is the label padded to the fixed
name width, then per item in exactly the caller-supplied order the padded
field title and the padded rendered value; the CPU row's items are usage,
then user, then system percent. -/
theorem render_row_layout_cpu_order :
    (∀ (M F : Type) [inst : Queriable M F] (name : String) (model : M)
        (items : List (ViewItem F)),
      render_row name model items
        = get_fixed_width name ROW_NAME_WIDTH
          :: items.flatMap fun item =>
               [get_fixed_width item.config.get_title ROW_FIELD_NAME_WIDTH,
                (item.update (rc_width ROW_FIELD_WIDTH)).render model])
    ∧ (∀ model : SystemModel, render_cpu_row model = render_row "CPU" model SYS_CPU_ITEMS)
    ∧ SYS_CPU_ITEMS = [ViewItem.from_default (.Cpu .UsagePct),
                       ViewItem.from_default (.Cpu .UserPct),
                       ViewItem.from_default (.Cpu .SystemPct)]
    ∧ (SYS_CPU_ITEMS.map fun i => i.config.get_title) = ["Usage", "User", "System"] :=
  ⟨fun _ _ _ name model items => render_row_eq name model items,
   fun _ => rfl, rfl, by decide⟩

/-- C4: all five rows begin with a label segment of the same fixed printed
width `ROW_NAME_WIDTH`, for every snapshot. -/
theorem row_label_width_uniform :
    ∀ vs : ViewState,
      (render_cpu_row vs.system).head?.map String.length = some ROW_NAME_WIDTH
      ∧ (render_mem_row vs.system).head?.map String.length = some ROW_NAME_WIDTH
      ∧ (render_vm_row vs.system).head?.map String.length = some ROW_NAME_WIDTH
      ∧ (render_io_row vs.system.disks).head?.map String.length = some ROW_NAME_WIDTH
      ∧ (render_iface_row vs.network.interfaces).head?.map String.length
          = some ROW_NAME_WIDTH := by
  intro vs
  refine ⟨?_, ?_, ?_, ?_, ?_⟩ <;>
    simp [render_cpu_row, render_mem_row, render_vm_row, render_io_row, render_iface_row,
          render_row_eq, render_models_row_eq, get_fixed_width_length]

/-- C5: when no disk passes the minor-number-zero filter (in particular an
empty collection), the I/O row is produced successfully and is only the
padded "I/O" label, with no per-entity segments. -/
theorem empty_io_row_label_only (disks : BTreeMap SingleDiskModel)
    (h : ∀ p ∈ disks, p.2.minor ≠ some 0) :
    render_io_row disks = [get_fixed_width "I/O" ROW_NAME_WIDTH] := by
  unfold render_io_row
  have hfilter : (disks.filter fun p => p.2.minor = some 0) = [] :=
    List.filter_eq_nil_iff.mpr fun p hp => by simpa using h p hp
  rw [hfilter]
  rfl

/-- C5 witness: a collection holding only the partition "sda1" (minor one)
renders the bare I/O label. -/
theorem empty_io_row_label_only_witness :
    render_io_row (btreeOfList [("sda1", { minor := some 1, disk_total_bytes_per_sec := 5 })])
      = [get_fixed_width "I/O" ROW_NAME_WIDTH] :=
  empty_io_row_label_only _ (by decide)

/-- Both render results observable around an `update` call: the first
component renders the returned item, the second renders the original item
after the update has been computed. -/
def render_after_update [Queriable M F] (i : ViewItem F) (b : RenderConfigBuilder)
    (m : M) : String × String :=
  (fun updated => (ViewItem.render updated m, ViewItem.render i m)) (i.update b)

/-- C6: `update` returns a new `ViewItem` with the override merged onto the
existing config (override wins on conflicting keys) and leaves the
original unchanged: rendering the pre-update item after `update` has been
computed yields the same output as rendering it directly, and the static
item tables keep feeding the row builders unmodified. -/
theorem view_item_update_pure :
    (∀ (F : Type) (i : ViewItem F) (b : RenderConfigBuilder),
      (i.update b).field_id = i.field_id
      ∧ (i.update b).config.title = b.title.getD i.config.title
      ∧ (i.update b).config.width = b.width.getD i.config.width
      ∧ (i.update b).config.format = b.format.getD i.config.format)
    ∧ (∀ (M F : Type) [inst : Queriable M F] (i : ViewItem F)
        (b : RenderConfigBuilder) (m : M),
      (render_after_update i b m).2 = i.render m
      ∧ (render_after_update i b m).1 = (i.update b).render m)
    ∧ (∀ model : SystemModel, render_cpu_row model = render_row "CPU" model SYS_CPU_ITEMS) :=
  ⟨fun _ _ _ => ⟨rfl, rfl, rfl, rfl⟩,
   fun _ _ _ _ _ _ => ⟨rfl, rfl⟩,
   fun _ => rfl⟩

theorem find?_map_set {α : Type} :
    ∀ (l : List (String × α)) (n : String) (x : α),
      (l.find? fun p => p.1 = n).isSome = true →
      ((l.map fun p => if p.1 = n then (p.1, x) else p).find? fun p => p.1 = n).map Prod.snd
        = some x
  | [], _, _, h => by simp [List.find?] at h
  | p :: rest, n, x, h => by
    by_cases hp : p.1 = n
    · simp only [List.map_cons, if_pos hp]
      simp [List.find?, hp]
    · simp only [List.map_cons, if_neg hp]
      simp only [List.find?, hp, decide_False] at h ⊢
      exact find?_map_set rest n x h

/-- Replacing a registered view's contents makes the next lookup return
the new contents. -/
theorem find_name_set_view (c : Cursive) (n : String) (rows : List (List String))
    (h : (find_name c n).isSome = true) :
    find_name (set_view c n rows) n = some rows := by
  show ((c.named_views.map fun p => if p.1 = n then (p.1, rows) else p).find?
      fun p => p.1 = n).map Prod.snd = some rows
  apply find?_map_set
  unfold find_name at h
  rcases hf : c.named_views.find? (fun p => p.1 = n) with _ | q
  · rw [hf] at h
    simp at h
  · rw [hf]
    rfl

/-- C7 counterexample: a cursive state where the view registered under
"system_view" is located, yet refresh still fails fast — because no
`ViewState` user data is stored. This refutes the "if and only if" and the
unconditional success on a found view. -/
theorem refresh_found_view_still_fails :
    (find_name { user_data := none, named_views := [("system_view", [])] } "system_view").isSome
      = true
    ∧ refresh { user_data := none, named_views := [("system_view", [])] }
        = Except.error "No data stored in Cursive object!" :=
  ⟨rfl, rfl⟩

/-- C7 (amended): refresh fails fast iff the view registered under
"system_view" cannot be located or no `ViewState` is stored in the Cursive
object; when both are present, refresh rebuilds the same five rows from
the current snapshot and replaces the list's contents in place. -/
theorem refresh_failure_condition :
    ∀ c : Cursive,
      ((∃ c', refresh c = Except.ok c') ↔
        ((find_name c "system_view").isSome ∧ c.user_data.isSome))
      ∧ (∀ vs : ViewState, c.user_data = some vs →
          ∀ rows, find_name c "system_view" = some rows →
            refresh c = Except.ok (set_view c "system_view" (system_rows vs))
            ∧ find_name (set_view c "system_view" (system_rows vs)) "system_view"
                = some (system_rows vs)) := by
  intro c
  constructor
  · constructor
    · rintro ⟨c', hc'⟩
      rcases hfind : find_name c "system_view" with _ | rows
      · simp [refresh, hfind] at hc'
      · rcases hud : c.user_data with _ | vs
        · simp [refresh, hfind, fill_content, hud, Except.map] at hc'
        · simp [hfind, hud]
    · rintro ⟨h1, h2⟩
      rcases hfind : find_name c "system_view" with _ | rows
      · rw [hfind] at h1
        simp at h1
      · rcases hud : c.user_data with _ | vs
        · rw [hud] at h2
          simp at h2
        · exact ⟨set_view c "system_view" (system_rows vs),
            by simp [refresh, hfind, fill_content, hud, Except.map]⟩
  · intro vs hud rows hfind
    refine ⟨by simp [refresh, hfind, fill_content, hud, Except.map], ?_⟩
    apply find_name_set_view
    rw [hfind]
    rfl

/-- C7 witness: with the view registered and a snapshot stored, refresh
succeeds and the registered view afterwards holds the five rebuilt rows. -/
theorem refresh_failure_condition_witness :
    refresh { user_data := some vs_example, named_views := [("system_view", [])] }
      = Except.ok (set_view { user_data := some vs_example, named_views := [("system_view", [])] }
          "system_view" (system_rows vs_example))
    ∧ find_name (set_view { user_data := some vs_example, named_views := [("system_view", [])] }
          "system_view" (system_rows vs_example)) "system_view"
        = some (system_rows vs_example) :=
  (refresh_failure_condition _).2 vs_example rfl [] rfl

/-- A cursive state before construction: snapshot stored, no view yet. -/
def c8_start : Cursive := { user_data := some vs_example, named_views := [] }

/-- The cursive state right after `new_view` on `c8_start`. -/
def c8_constructed : Cursive :=
  { user_data := some vs_example, named_views := [("system_view", system_rows vs_example)] }

/-- C8: construct followed by refresh on an unchanged snapshot produces
byte-identical row output — the registered view's contents after refresh
equal its contents after construct, both the five rows of the snapshot. -/
theorem refresh_after_construct_identical (c c₁ c₂ : Cursive)
    (hnone : find_name c "system_view" = none)
    (hnew : new_view c = Except.ok c₁)
    (href : refresh c₁ = Except.ok c₂) :
    find_name c₂ "system_view" = find_name c₁ "system_view"
    ∧ ∃ vs : ViewState, c.user_data = some vs
        ∧ find_name c₁ "system_view" = some (system_rows vs)
        ∧ find_name c₂ "system_view" = some (system_rows vs) := by
  rcases hud : c.user_data with _ | vs
  · simp [new_view, fill_content, hud, Except.map] at hnew
  · have hc₁ : c₁
        = { user_data := some vs,
            named_views := c.named_views ++ [("system_view", system_rows vs)] } := by
      simp [new_view, fill_content, hud, Except.map] at hnew
      exact hnew.symm
    have hfound : c.named_views.find? (fun p => p.1 = "system_view") = none :=
      Option.map_eq_none'.mp hnone
    have hfind₁ : find_name c₁ "system_view" = some (system_rows vs) := by
      rw [hc₁]
      show ((c.named_views ++ [("system_view", system_rows vs)]).find?
          (fun p => p.1 = "system_view")).map Prod.snd = some (system_rows vs)
      rw [List.find?_append, hfound]
      simp [List.find?]
    have hud₁ : c₁.user_data = some vs := by rw [hc₁]
    have href' : refresh c₁ = Except.ok (set_view c₁ "system_view" (system_rows vs)) := by
      simp [refresh, hfind₁, fill_content, hud₁, Except.map]
    have hc₂ : c₂ = set_view c₁ "system_view" (system_rows vs) :=
      Except.ok.inj (href.symm.trans href')
    have hfind₂ : find_name c₂ "system_view" = some (system_rows vs) := by
      rw [hc₂]
      exact find_name_set_view c₁ _ _ (by rw [hfind₁]; rfl)
    exact ⟨hfind₂.trans hfind₁.symm, vs, rfl, hfind₁, hfind₂⟩

/-- C8 witness: on a concrete snapshot, constructing and then refreshing
leaves the registered view with the same five rows. -/
theorem refresh_after_construct_identical_witness :
    find_name c8_constructed "system_view" = find_name c8_constructed "system_view"
    ∧ ∃ vs : ViewState, c8_start.user_data = some vs
        ∧ find_name c8_constructed "system_view" = some (system_rows vs)
        ∧ find_name c8_constructed "system_view" = some (system_rows vs) :=
  refresh_after_construct_identical c8_start c8_constructed c8_constructed rfl rfl rfl

/-- C9: a disk whose minor number is absent is excluded from the I/O row,
exactly as a disk with a nonzero minor number is — the filter admits only
disks whose minor number is present and equal to zero. -/
theorem io_row_excludes_absent_minor (disks : BTreeMap SingleDiskModel)
    (k : String) (m : SingleDiskModel)
    (hmem : (k, m) ∈ disks) (hminor : m.minor = none) :
    render_io_row disks
      = get_fixed_width "I/O" ROW_NAME_WIDTH
        :: (disks.filter fun p => p.2.minor = some 0).flatMap disk_segments
    ∧ (k, m) ∉ (disks.filter fun p => p.2.minor = some 0) := by
  constructor
  · unfold render_io_row
    rw [render_models_row_eq]
    rfl
  · intro hmem'
    rcases List.mem_filter.mp hmem' with ⟨-, hpred⟩
    have : m.minor = some 0 := of_decide_eq_true hpred
    rw [hminor] at this
    cases this

/-- Concrete disk collection holding a minor-zero disk and a disk whose
minor number is unknown. -/
def c9_disks : BTreeMap SingleDiskModel :=
  btreeOfList
    [("sda", { minor := some 0, disk_total_bytes_per_sec := 100 }),
     ("sdc", { minor := none, disk_total_bytes_per_sec := 7 })]

/-- C9 witness: the unknown-minor disk "sdc" is excluded from the I/O
row's entity list. -/
theorem io_row_excludes_absent_minor_witness :
    render_io_row c9_disks
      = get_fixed_width "I/O" ROW_NAME_WIDTH
        :: (c9_disks.filter fun p => p.2.minor = some 0).flatMap disk_segments
    ∧ (("sdc", { minor := none, disk_total_bytes_per_sec := 7 }) : String × SingleDiskModel) ∉
        (c9_disks.filter fun p => p.2.minor = some 0) :=
  io_row_excludes_absent_minor c9_disks "sdc"
    { minor := none, disk_total_bytes_per_sec := 7 } (by decide) rfl

/-- C10: both row builders override the item's configured width to
`ROW_FIELD_WIDTH` (17) before rendering any value segment — a ViewItem's
default width never influences row output — and every field title and
entity name is rendered at `ROW_FIELD_NAME_WIDTH` (9). -/
theorem row_width_override_dominates :
    (ROW_FIELD_WIDTH = 17 ∧ ROW_FIELD_NAME_WIDTH = 9)
    ∧ (∀ (M F : Type) [inst : Queriable M F] (name : String) (model : M)
        (items : List (ViewItem F)) (w : Nat),
      render_row name model
          (items.map fun i => { i with config := { i.config with width := w } })
        = render_row name model items)
    ∧ (∀ (M F : Type) [inst : Queriable M F] (name : String)
        (ms : List (String × M)) (item : ViewItem F) (w : Nat),
      render_models_row name ms { item with config := { item.config with width := w } }
        = render_models_row name ms item)
    ∧ (∀ (M F : Type) [inst : Queriable M F] (name : String) (model : M)
        (items : List (ViewItem F)),
      (render_row name model items).map String.length
        = ROW_NAME_WIDTH :: items.flatMap fun _ => [ROW_FIELD_NAME_WIDTH, ROW_FIELD_WIDTH])
    ∧ (∀ (M F : Type) [inst : Queriable M F] (name : String)
        (ms : List (String × M)) (item : ViewItem F),
      (render_models_row name ms item).map String.length
        = ROW_NAME_WIDTH :: ms.flatMap fun _ => [ROW_FIELD_NAME_WIDTH, ROW_FIELD_WIDTH]) := by
  refine ⟨⟨rfl, rfl⟩, ?_, ?_, ?_, ?_⟩
  · intro M F inst name model items w
    rw [render_row_eq, render_row_eq, flatMap_of_map]
    rfl
  · intro M F inst name ms item w
    rw [render_models_row_eq, render_models_row_eq]
    rfl
  · intro M F inst name model items
    rw [render_row_eq, List.map_cons,
      map_length_flatMap_pair
        (fun item : ViewItem F => get_fixed_width item.config.get_title ROW_FIELD_NAME_WIDTH)
        (fun item : ViewItem F => (item.update (rc_width ROW_FIELD_WIDTH)).render model)
        items]
    have hconst : (fun item : ViewItem F =>
        [(get_fixed_width item.config.get_title ROW_FIELD_NAME_WIDTH).length,
         ((item.update (rc_width ROW_FIELD_WIDTH)).render model).length])
        = fun _ => [ROW_FIELD_NAME_WIDTH, ROW_FIELD_WIDTH] := by
      funext item
      rw [get_fixed_width_length, render_updated_width_length]
    rw [get_fixed_width_length, hconst]
  · intro M F inst name ms item
    rw [render_models_row_eq, List.map_cons,
      map_length_flatMap_pair
        (fun p : String × M => get_fixed_width p.1 ROW_FIELD_NAME_WIDTH)
        (fun p : String × M => (item.update (rc_width ROW_FIELD_WIDTH)).render p.2)
        ms]
    have hconst : (fun p : String × M =>
        [(get_fixed_width p.1 ROW_FIELD_NAME_WIDTH).length,
         ((item.update (rc_width ROW_FIELD_WIDTH)).render p.2).length])
        = fun _ => [ROW_FIELD_NAME_WIDTH, ROW_FIELD_WIDTH] := by
      funext p
      rw [get_fixed_width_length, render_updated_width_length]
    rw [get_fixed_width_length, hconst]
